import Mathlib

/-!
Verification development for the NotebookLM-Loader pipeline
(`notebooklm_loader` Python package).

Shallow embedding conventions:
* Python strings are `List Char` (`Text` below); slicing never splits a
  code point in Python, and neither does `List.take`/`List.drop`.
* Stateful objects (`MergedOutputManager`, `ProcessingState`) become
  records with explicit state passing; writing a merged volume to disk is
  modelled as appending a `Volume` record to `MergerState.volumes`.
* External collaborators (sha256, MIME sniffer, chardet probe, the
  MarkItDown / LibreOffice converters) are parameters or abstract inputs,
  per the spec's black-box contracts.
-/

namespace NotebookLM

abbrev Text := List Char

/-! ## Merge/Chunk Engine (`notebooklm_loader/merger.py`) -/

/-- Safety ceiling on the number of parts one huge file may be split into
(`MAX_PARTS = 10000` in `merger.py`). -/
def MAX_PARTS : Nat := 10000

/-- One flushed merged volume: `_flush_volume` writes
`Merged_Files_Vol{NN}.md` containing a table of contents built from
`file_index` followed by the joined buffered fragments.  The write is
modelled by recording the volume number, the table-of-contents names and
the buffered fragments. -/
structure Volume where
  vol : Nat
  fileIndex : List Text
  contents : List Text
deriving DecidableEq

/-- State of `MergedOutputManager`: `max_chars_per_volume`, `current_vol`,
`current_content`, `current_char_count`, `file_index`, plus the volumes
written so far (modelling the output directory). -/
structure MergerState where
  maxCharsPerVolume : Nat
  currentVol : Nat
  currentContent : List Text
  currentCharCount : Nat
  fileIndex : List Text
  volumes : List Volume
deriving DecidableEq

/-- `MergedOutputManager.__init__`: volume counter starts at 1, empty
buffer, zero char count. -/
def initMerger (maxCharsPerVolume : Nat) : MergerState :=
  ⟨maxCharsPerVolume, 1, [], 0, [], []⟩

/-- `_flush_volume`: no-op on an empty buffer; otherwise the volume is
written and buffer, char count and index are reset while the volume
counter increments. -/
def flush_volume (s : MergerState) : MergerState :=
  if s.currentContent = [] then s
  else
    { s with
      volumes := s.volumes ++ [⟨s.currentVol, s.fileIndex, s.currentContent⟩]
      currentVol := s.currentVol + 1
      currentContent := []
      currentCharCount := 0
      fileIndex := [] }

/-- Decimal rendering of a natural number, for the `(Part N)` headers. -/
def natChars (n : Nat) : Text := (Nat.repr n).toList

/-- The per-part header `f"\n\n# {filename} (Part {part_num})\n\n"`. -/
def partHeader (filename : Text) (partNum : Nat) : Text :=
  "\n\n# ".toList ++ filename ++ " (Part ".toList ++ natChars partNum ++ ")\n\n".toList

/-- The table-of-contents entry `f"{filename} (Part {part_num})"`. -/
def partIndexName (filename : Text) (partNum : Nat) : Text :=
  filename ++ " (Part ".toList ++ natChars partNum ++ [')']

/-- Python `remaining.rfind(c, 0, stop)`: highest index `i < min stop len`
with `remaining[i] = c`, or `none` (Python returns `-1`). -/
def rfindCharAux (r : Text) (c : Char) : Nat → Option Nat
  | 0 => none
  | i + 1 => if r[i]? = some c then some i else rfindCharAux r c i

/-- Python `remaining.rfind(c, 0, stop)`. -/
def rfindChar (r : Text) (c : Char) (stop : Nat) : Option Nat :=
  rfindCharAux r c (min stop r.length)

/-- Python `remaining.rfind(two-char needle, 0, stop)`: highest start
index whose two-character needle lies inside `remaining[0:stop]`. -/
def rfindPairAux (r : Text) (c₁ c₂ : Char) : Nat → Option Nat
  | 0 => none
  | i + 1 =>
    if r[i]? = some c₁ ∧ r[i + 1]? = some c₂ then some i else rfindPairAux r c₁ c₂ i

/-- Python `remaining.rfind(needle, 0, stop)` for a 2-character needle. -/
def rfindPair (r : Text) (c₁ c₂ : Char) (stop : Nat) : Option Nat :=
  rfindPairAux r c₁ c₂ (min stop r.length - 1)

/-- Split-position search of `_handle_huge_file`: last newline in the
window, else last `",\n"` (cut after it), else last `"\t\n"`, else last
`','`, else last `'\t'`, else last `' '`, else the raw window size
(`available_space`); a position of `0` (or nothing found) also falls back
to `available_space`. -/
def computeSplitPos (remaining : Text) (availableSpace : Nat) : Nat :=
  let sp := rfindChar remaining '\n' availableSpace
  let sp := match sp with
    | some i => some i
    | none => (rfindPair remaining ',' '\n' availableSpace).map (· + 2)
  let sp := match sp with
    | some i => some i
    | none => (rfindPair remaining '\t' '\n' availableSpace).map (· + 2)
  let sp := match sp with
    | some i => some i
    | none => (rfindChar remaining ',' availableSpace).map (· + 1)
  let sp := match sp with
    | some i => some i
    | none => (rfindChar remaining '\t' availableSpace).map (· + 1)
  let sp := match sp with
    | some i => some i
    | none => (rfindChar remaining ' ' availableSpace).map (· + 1)
  match sp with
  | none => availableSpace
  | some 0 => availableSpace
  | some i => i

/-- One cut of the huge-file splitter: if the rest is longer than the
available space, cut at `computeSplitPos` (`c_chunk = remaining[:split_pos]`,
`remaining = remaining[split_pos:]`); otherwise the whole rest is the
chunk. -/
def chunkSplit (remaining : Text) (availableSpace : Nat) : Text × Text :=
  if remaining.length > availableSpace then
    (remaining.take (computeSplitPos remaining availableSpace),
     remaining.drop (computeSplitPos remaining availableSpace))
  else (remaining, [])

/-- Result of the huge-file splitting loop, instrumented with the chunk
bodies (`c_chunk` values), the `current_char_count` value immediately
after each buffer append, and the content left unconsumed when the part
ceiling stops the loop. -/
structure HugeResult where
  state : MergerState
  chunks : List Text
  counts : List Nat
  leftover : Text

/-- The `while remaining and part_num <= MAX_PARTS` loop of
`_handle_huge_file`, with `fuel` counting the part numbers still allowed.
Each iteration: build the part header; flush first if the header alone
would overflow; compute `available_space = max(1, cap - count - header)`;
cut a chunk; append `header ++ chunk` to the buffer (recording the char
count right after the append); flush if the buffer is now at or over
capacity. -/
def hugeLoop (filename : Text) : Nat → Nat → Text → MergerState → HugeResult
  | _, 0, remaining, s => ⟨s, [], [], remaining⟩
  | partNum, fuel + 1, remaining, s =>
    if remaining = [] then ⟨s, [], [], []⟩
    else
      let header := partHeader filename partNum
      let s₁ :=
        if s.currentCharCount + header.length > s.maxCharsPerVolume then flush_volume s else s
      let availableSpace := max 1 (s₁.maxCharsPerVolume - s₁.currentCharCount - header.length)
      let pieces := chunkSplit remaining availableSpace
      let fullChunk := header ++ pieces.1
      let s₂ :=
        { s₁ with
          currentContent := s₁.currentContent ++ [fullChunk]
          fileIndex := s₁.fileIndex ++ [partIndexName filename partNum]
          currentCharCount := s₁.currentCharCount + fullChunk.length }
      let s₃ := if s₂.currentCharCount ≥ s₂.maxCharsPerVolume then flush_volume s₂ else s₂
      let rest := hugeLoop filename (partNum + 1) fuel pieces.2 s₃
      ⟨rest.state, pieces.1 :: rest.chunks, s₂.currentCharCount :: rest.counts, rest.leftover⟩

/-- `_handle_huge_file(filename, content)`: run the splitting loop from
part number 1 with the `MAX_PARTS` ceiling. -/
def handle_huge_file (s : MergerState) (filename content : Text) : HugeResult :=
  hugeLoop filename 1 MAX_PARTS content s

/-- `add_content(filename, content)`: contents longer than one volume go
to the huge-file splitter; otherwise flush pre-emptively when the append
would overflow, then append the fragment, its length and its name. -/
def add_content (s : MergerState) (filename content : Text) : MergerState :=
  if content.length > s.maxCharsPerVolume then (handle_huge_file s filename content).state
  else
    let s₁ :=
      if s.currentCharCount + content.length > s.maxCharsPerVolume then flush_volume s else s
    { s₁ with
      currentContent := s₁.currentContent ++ [content]
      currentCharCount := s₁.currentCharCount + content.length
      fileIndex := s₁.fileIndex ++ [filename] }

/-- `finalize()`: flush whatever remains in the buffer. -/
def finalize (s : MergerState) : MergerState := flush_volume s

/-- Engine states reachable through the public API: a fresh manager
followed by any sequence of `add_content` and `finalize` calls. -/
inductive MergerReachable : MergerState → Prop
  | init (maxCharsPerVolume : Nat) : MergerReachable (initMerger maxCharsPerVolume)
  | add (filename content : Text) {s : MergerState} :
      MergerReachable s → MergerReachable (add_content s filename content)
  | fin {s : MergerState} : MergerReachable s → MergerReachable (finalize s)

/-- Auxiliary invariant of the engine state: the buffered count is within
capacity, and an empty buffer has count zero. -/
def MergerInv (s : MergerState) : Prop :=
  s.currentCharCount ≤ s.maxCharsPerVolume ∧ (s.currentContent = [] → s.currentCharCount = 0)

/-! ## Router walk (`notebooklm_loader/main.py`, `process_directory`) -/

/-- Python `file.startswith('.')` on a file name. -/
def startsWithDot : Text → Bool
  | [] => false
  | c :: _ => c = '.'

/-- File collection of the walk (`main.py` lines 99-105): `os.walk`
gathers the file names and drops hidden ones (`if not
file.startswith('.')`).  `entries` are the walked file names. -/
def collect_walk_files (entries : List Text) : List Text :=
  entries.filter (fun f => !startsWithDot f)

/-- What one iteration of the per-file loop of `process_directory`
(`main.py` lines 113-169) does with a file name.  In the source, the loop
body is `if file.startswith('.'): continue`, and the whole dispatch block
that follows — the symlink check, the skip-extension check, the archive
recursion and the `_process_single_file` call (lines 123-169) — is
indented inside that guard, after the `continue`.  Those statements are
therefore unreachable: a hidden file hits `continue`, and for any other
file the body falls through having executed nothing. -/
inductive LoopOutcome
  | skipHidden
  | noEffect
deriving DecidableEq

/-- The per-file loop body of `process_directory` as the source executes
it (see `LoopOutcome`). -/
def process_directory_loop_body (file : Text) : LoopOutcome :=
  if startsWithDot file then LoopOutcome.skipHidden else LoopOutcome.noEffect

/-- Whether a loop outcome reaches the `_process_single_file` dispatch.
No outcome does, because the dispatch statement is unreachable dead
code. -/
def dispatches_single_file : LoopOutcome → Bool
  | LoopOutcome.skipHidden => false
  | LoopOutcome.noEffect => false

/-- The files a `process_directory` walk hands to `_process_single_file`:
walked non-hidden files whose loop iteration reaches the dispatch. -/
def process_directory_dispatched (entries : List Text) : List Text :=
  (collect_walk_files entries).filter
    (fun f => dispatches_single_file (process_directory_loop_body f))

/-! ## Configuration (`notebooklm_loader/config.py`) -/

/-- The `Config` dataclass fields used by classification and routing. -/
structure Config where
  max_file_size_mb : Nat
  visual_density_threshold : ℚ
  office_extensions_new : List Text
  office_extensions_legacy : List Text
  markitdown_extensions : List Text
  visio_extensions : List Text
  image_extensions : List Text
  archive_extensions : List Text
  skip_extensions : List Text
  text_extensions : List Text

/-- The default `Config` values of `config.py`. -/
def defaultConfig : Config where
  max_file_size_mb := 100
  visual_density_threshold := 300
  office_extensions_new := [".docx", ".xlsx", ".pptx", ".xls"].map String.toList
  office_extensions_legacy := [".doc", ".ppt"].map String.toList
  markitdown_extensions := [".rtf", ".epub", ".msg", ".eml"].map String.toList
  visio_extensions := [".vsdx", ".vsd"].map String.toList
  image_extensions :=
    [".png", ".jpg", ".jpeg", ".gif", ".bmp", ".tiff", ".tif", ".webp"].map String.toList
  archive_extensions := [".zip", ".7z", ".rar", ".tar", ".gz", ".tgz", ".lzh"].map String.toList
  skip_extensions :=
    [".one", ".onetoc2", ".accdb", ".mdb",
     ".mp4", ".avi", ".mov", ".wmv", ".mkv", ".flv", ".webm",
     ".mp3", ".wav", ".aac", ".flac", ".ogg", ".wma", ".m4a",
     ".dwg", ".dxf", ".exe", ".dll", ".so", ".dylib",
     ".bin", ".dat", ".iso", ".img"].map String.toList
  text_extensions :=
    [".txt", ".md", ".py", ".js", ".jsx", ".ts", ".tsx", ".html", ".css", ".json",
     ".yaml", ".yml", ".org", ".sh", ".bat", ".zsh", ".rb", ".java", ".c", ".cpp",
     ".h", ".go", ".rs", ".php", ".pl", ".swift", ".kt", ".sql", ".xml", ".csv",
     ".log", ".ini", ".cfg", ".conf", ".properties", ".env", ".toml", ".tsv",
     ".rst"].map String.toList

/-- `Config.office_extensions_all`: union of the new and legacy office
extension sets (the two lists are disjoint, so list append models the set
union). -/
def office_extensions_all (cfg : Config) : List Text :=
  cfg.office_extensions_new ++ cfg.office_extensions_legacy

/-- `Config.max_file_size`: the size ceiling in bytes. -/
def max_file_size (cfg : Config) : Nat := cfg.max_file_size_mb * 1024 * 1024

/-! ## File classification (dispatch chain of `process_directory` lines
131-169 and `_process_single_file` lines 206-362) -/

/-- The handling categories a file can be routed to.  `Unhandled` stands
for the unreachable fall-through of the final redundant guard `ext not in
office_extensions_all and ext != '.pdf'` in `_process_single_file`. -/
inductive Category
  | SkipExplicit
  | SkipOversize
  | SkipBinary
  | Archive
  | OfficeModern
  | OfficeLegacy
  | PdfPassthrough
  | GenericConvertible
  | VectorDiagram
  | Image
  | PlainText
  | Unhandled
deriving DecidableEq

/-- The extension dispatch chain after the explicit-skip check, in source
order: archive set (`process_directory` line 140), new-office set,
`.pdf`, legacy-office set, MarkItDown set, Visio set, image set, then the
text branch of `_process_single_file` (lines 344-362): a known text
extension or a confident text MIME answer gives `PlainText` (the encoding
probe then only selects the encoding), a confident binary MIME answer
gives `SkipBinary`, and an inconclusive MIME answer defers to the
encoding probe's readability verdict.  `mimeIsText` is
`is_likely_text_by_mime` (`some true` / `some false` / `none` for
inconclusive), `probeReadable` the `is_text_file` readability flag.
Classification is modelled with the default `skip_ppt = False`
configuration, under which the PowerPoint early-skip branches are
inert. -/
def classifyCore (cfg : Config) (ext : Text) (mimeIsText : Option Bool)
    (probeReadable : Bool) : Category :=
  if ext ∈ cfg.archive_extensions then Category.Archive
  else if ext ∈ cfg.office_extensions_new then Category.OfficeModern
  else if ext = ".pdf".toList then Category.PdfPassthrough
  else if ext ∈ cfg.office_extensions_legacy then Category.OfficeLegacy
  else if ext ∈ cfg.markitdown_extensions then Category.GenericConvertible
  else if ext ∈ cfg.visio_extensions then Category.VectorDiagram
  else if ext ∈ cfg.image_extensions then Category.Image
  else if ext ∉ office_extensions_all cfg ∧ ext ≠ ".pdf".toList then
    if ext ∈ cfg.text_extensions ∨ mimeIsText = some true then Category.PlainText
    else if mimeIsText = some false then Category.SkipBinary
    else if probeReadable then Category.PlainText
    else Category.SkipBinary
  else Category.Unhandled

/-- Classification of a file by the code: the explicit-skip extension set
first (`process_directory` line 134), then the dispatch chain.  The
refactored pipeline consults no file size anywhere in this chain
(`config.max_file_size` is defined but never read by `main.py`; the
comment at `main.py` line 129 notes huge files are left to the merger or
the MIME check instead). -/
def classify (cfg : Config) (ext : Text) (mimeIsText : Option Bool)
    (probeReadable : Bool) : Category :=
  if ext ∈ cfg.skip_extensions then Category.SkipExplicit
  else classifyCore cfg ext mimeIsText probeReadable

/-- Modelled from the spec: the decision order the specification claims,
`explicit-skip set → size over ceiling → archive set → …`, i.e. the
code's chain with a `SkipOversize` verdict for files above
`max_file_size` inserted in second position.  Used only to compare the
claimed order with the implemented one. -/
def classifySpecOrder (cfg : Config) (sizeBytes : Nat) (ext : Text)
    (mimeIsText : Option Bool) (probeReadable : Bool) : Category :=
  if ext ∈ cfg.skip_extensions then Category.SkipExplicit
  else if sizeBytes > max_file_size cfg then Category.SkipOversize
  else classifyCore cfg ext mimeIsText probeReadable

/-! ## Visual-density routing (`_process_single_file` lines 221-254) -/

/-- The density ratio `char_count / vis_count if vis_count > 0 else 9999`
of the new-office visual-density check. -/
def visual_density_ratio (visCount charCount : Nat) : ℚ :=
  if visCount > 0 then (charCount : ℚ) / (visCount : ℚ) else 9999

/-- The reroute decision for a modern Office file: convert to PDF when
`ratio < visual_density_threshold` (`is_dense_visual`) or `vis_count >=
5`; otherwise extract text via MarkItDown. -/
def should_convert_to_pdf (threshold : ℚ) (visCount charCount : Nat) : Bool :=
  decide (visual_density_ratio visCount charCount < threshold) || decide (5 ≤ visCount)

/-! ## Identity/State Tracker (`notebooklm_loader/state.py`) -/

/-- A persisted `FileState` record: content hash (the empty list models
the empty-string hash that `get_file_hash` returns on a read failure),
modification time, output name, processing timestamp and file type. -/
structure FileRecord where
  hash : Text
  mtime : Int
  output : Text
  processed_at : Text
  file_type : Text
deriving DecidableEq

/-- A file on disk as the tracker observes it: `statMtime` is
`path.stat().st_mtime` (`none` when `stat` raises), `contents` the byte
stream (`none` when opening/reading raises).  Modification times are
modelled as integers; only their equality is ever consulted. -/
structure DiskFile where
  statMtime : Option Int
  contents : Option (List Nat)
deriving DecidableEq

/-- `get_file_hash`: streams the file through the sha256 collaborator
(`hashFn`); any read failure is caught and yields the empty string. -/
def get_file_hash (hashFn : List Nat → Text) (f : DiskFile) : Text :=
  match f.contents with
  | some bytes => hashFn bytes
  | none => []

/-- `needs_processing(file_path, file_key)`: `True` for an unknown key;
otherwise compare the current mtime with the stored one inside a
`try` (a `stat` failure returns `True`); on an mtime difference recompute
the hash and return `True` only when it differs from the stored hash;
in every other case fall through to `False`. -/
def needs_processing (hashFn : List Nat → Text) (files : List (Text × FileRecord))
    (f : DiskFile) (key : Text) : Bool :=
  match List.lookup key files with
  | none => true
  | some stored =>
    match f.statMtime with
    | none => true
    | some currentMtime =>
      if currentMtime ≠ stored.mtime then
        if get_file_hash hashFn f ≠ stored.hash then true else false
      else false

/-- `record_processed`: store `{hash, mtime, output, processed_at,
file_type}` under `key`; a `stat` failure is swallowed (`except: pass`)
leaving the map unchanged.  The dict assignment is modelled by consing
the new binding (`List.lookup` returns the most recent one). -/
def record_processed (hashFn : List Nat → Text) (files : List (Text × FileRecord))
    (f : DiskFile) (key output file_type now : Text) : List (Text × FileRecord) :=
  match f.statMtime with
  | none => files
  | some mtime =>
    (key, ⟨get_file_hash hashFn f, mtime, output, now, file_type⟩) :: files

/-! ## Retry wrapper (`converters/office_converter.py`
`convert_with_markitdown` lines 113-144 and `converters/pdf_converter.py`
`convert_to_pdf_via_libreoffice` lines 12-62, which share the same retry
skeleton) -/

/-- Observable trace of one retry run: the returned value (`none` models
the final `return None`), the `time.sleep` durations in order, and how
many times the final-failure warning was logged. -/
structure RetryTrace (α : Type) where
  result : Option α
  sleeps : List Nat
  warningCount : Nat
deriving DecidableEq

/-- The `for attempt in range(max_retries)` loop shared by both
converters.  `behav attempt` is the external call's outcome on that
attempt (`some v` success, `none` exception).  On failure with `attempt <
max_retries - 1` the loop sleeps `2 ** attempt` seconds and retries; on
the final attempt it logs the warning once and the loop ends, returning
`None`.  `fuel` counts the attempts still available (`max_retries -
attempt` at every call from `call_with_retry`). -/
def retryGo {α : Type} (behav : Nat → Option α) (maxRetries : Nat) :
    Nat → Nat → RetryTrace α
  | _, 0 => ⟨none, [], 0⟩
  | attempt, fuel + 1 =>
    match behav attempt with
    | some v => ⟨some v, [], 0⟩
    | none =>
      if attempt < maxRetries - 1 then
        let r := retryGo behav maxRetries (attempt + 1) fuel
        ⟨r.result, 2 ^ attempt :: r.sleeps, r.warningCount⟩
      else ⟨none, [], 1⟩

/-- A whole retry run starting at attempt 0. -/
def call_with_retry {α : Type} (behav : Nat → Option α) (maxRetries : Nat) : RetryTrace α :=
  retryGo behav maxRetries 0 maxRetries

/-! ## Archive extraction path check (`extractors/zip_extractor.py` lines
41-52; `extractors/archive_extractor.py` `extract_tar` lines 100-108 uses
the same check) -/

/-- Boolean prefix test on lists (Python `str.startswith` on the
character lists, and component-prefix test on path components). -/
def listStartsWith {α : Type} [DecidableEq α] : List α → List α → Bool
  | [], _ => true
  | _ :: _, [] => false
  | p :: ps, t :: ts => if p = t then listStartsWith ps ts else false

/-- Helper of path splitting: accumulate characters up to each `'/'`. -/
def splitSlashAux : List Char → List Char → List (List Char)
  | [], acc => [acc.reverse]
  | c :: rest, acc =>
    if c = '/' then acc.reverse :: splitSlashAux rest [] else splitSlashAux rest (c :: acc)

/-- Non-empty components of a POSIX path string. -/
def pathComponents (p : Text) : List Text :=
  (splitSlashAux p []).filter (fun c => c ≠ [])

/-- Resolution of `"."` and `".."` components as `os.path.normpath` does
for an absolute path (a `".."` at the root stays at the root). -/
def resolveDotDot (comps : List Text) : List Text :=
  comps.foldl
    (fun acc c =>
      if c = ".".toList then acc
      else if c = "..".toList then acc.dropLast
      else acc ++ [c]) []

/-- `Path(extract_to) / filename`: an absolute member name replaces the
base, otherwise the name is appended. -/
def joinedPath (root name : Text) : Text :=
  match name with
  | '/' :: _ => name
  | _ => root ++ '/' :: name

/-- Rendering of `os.path.abspath` for an absolute input path: normalize
and re-join the components with `'/'`. -/
def os_path_abspath (p : Text) : Text :=
  '/' :: List.intercalate "/".toList (resolveDotDot (pathComponents p))

/-- The member filter of `extract_zip_with_encoding` (and of
`extract_tar`): for each member name form `target = Path(extract_to) /
filename`; skip the member (`continue`) unless
`os.path.abspath(target).startswith(os.path.abspath(extract_to))`;
otherwise the member is written at the target.  The function returns the
resolved paths of the files the extraction creates.  (The zip encoding
fix-up of member names and the file/directory distinction are orthogonal
to the escape check and are not modelled.) -/
def extract_zip_members (extractTo : Text) (memberNames : List Text) : List Text :=
  memberNames.filterMap
    (fun name =>
      let target := joinedPath extractTo name
      if listStartsWith (os_path_abspath extractTo) (os_path_abspath target) then
        some (os_path_abspath target)
      else none)

/-- Whether `target` truly lies inside the directory `root`: the resolved
components of `root` are a component-wise prefix of those of `target`. -/
def path_within (root target : Text) : Bool :=
  listStartsWith (resolveDotDot (pathComponents root)) (resolveDotDot (pathComponents target))

/-! ## Invisible-character sanitisation (`notebooklm_loader/utils.py`
`sanitize_content` lines 42-72) and the markdown output assembly
(`_process_single_file` lines 364-406) -/

/-- The `INVISIBLE_CHARS` set removed by `sanitize_content`: zero-width
space, zero-width non-joiner, zero-width joiner, left-to-right mark,
right-to-left mark, word joiner, BOM, NUL. -/
def INVISIBLE_CHARS : List Char :=
  ['\u200B', '\u200C', '\u200D', '\u200E', '\u200F', '\u2060', '\uFEFF', '\u0000']

/-- `sanitize_content`: remove every occurrence of each invisible
character (`content.replace(char, '')` for a single character is a
filter; the Python set iteration order does not affect the result, so a
fixed order is used). -/
def sanitize_content (content : Text) : Text :=
  INVISIBLE_CHARS.foldl (fun acc c => acc.filter (fun x => x ≠ c)) content

/-- `rel_path_str.replace(os.sep, ' > ')` of the metadata header, with
the POSIX separator. -/
def sep_to_context (rel : Text) : Text :=
  rel.flatMap (fun c => if c = '/' then " > ".toList else [c])

/-- The metadata header template prepended to every converted text output
(`_process_single_file` lines 388-394), built from the raw file name and
relative path. -/
def metadata_header (file relPath : Text) : Text :=
  "# File Info\n- Original Filename: ".toList ++ file ++
    "\n- Relative Path: ".toList ++ relPath ++
    "\n- Context: ".toList ++ sep_to_context relPath ++ "\n\n---\n".toList

/-- The `final_content` written to the output file and handed to
`merger.add_content` (lines 395-406): the metadata header, then the
sanitised markdown content (line 379), then the closing separator. -/
def final_content (file relPath markdownContent : Text) : Text :=
  metadata_header file relPath ++ sanitize_content markdownContent ++ "\n\n---\n\n".toList


/-! ## Helper lemmas -/

theorem chunkSplit_fst_append_snd (r : Text) (a : Nat) :
    (chunkSplit r a).1 ++ (chunkSplit r a).2 = r := by
  unfold chunkSplit
  split <;> simp

theorem hugeLoop_lossless (filename : Text) :
    ∀ (fuel partNum : Nat) (remaining : Text) (s : MergerState),
      (hugeLoop filename partNum fuel remaining s).chunks.flatten ++
        (hugeLoop filename partNum fuel remaining s).leftover = remaining := by
  intro fuel
  induction fuel with
  | zero => intro pn rem s; simp [hugeLoop]
  | succ n ih =>
    intro pn rem s
    by_cases h : rem = []
    · simp [hugeLoop, h]
    · simp only [hugeLoop, if_neg h, List.flatten_cons, List.append_assoc]
      rw [ih]
      exact chunkSplit_fst_append_snd rem _

theorem flush_volume_maxChars (s : MergerState) :
    (flush_volume s).maxCharsPerVolume = s.maxCharsPerVolume := by
  unfold flush_volume; split <;> rfl

theorem flush_volume_inv {s : MergerState} (h : MergerInv s) : MergerInv (flush_volume s) := by
  unfold flush_volume
  split
  · exact h
  · exact And.intro (Nat.zero_le _) (fun _ => rfl)

theorem hugeLoop_inv (filename : Text) :
    ∀ (fuel partNum : Nat) (remaining : Text) (s : MergerState), MergerInv s →
      MergerInv (hugeLoop filename partNum fuel remaining s).state ∧
      (hugeLoop filename partNum fuel remaining s).state.maxCharsPerVolume =
        s.maxCharsPerVolume := by
  intro fuel
  induction fuel with
  | zero =>
    intro pn rem s h
    refine And.intro h ?_
    rfl
  | succ n ih =>
    intro pn rem s h
    by_cases hrem : rem = []
    · simp only [hugeLoop, if_pos hrem]
      refine And.intro h ?_
      trivial
    · simp only [hugeLoop, if_neg hrem]
      set s₁ := if s.currentCharCount + (partHeader filename pn).length > s.maxCharsPerVolume
        then flush_volume s else s with hs₁
      have hinv₁ : MergerInv s₁ := by
        rw [hs₁]; split
        · exact flush_volume_inv h
        · exact h
      have hmax₁ : s₁.maxCharsPerVolume = s.maxCharsPerVolume := by
        rw [hs₁]; split
        · exact flush_volume_maxChars s
        · rfl
      set availableSpace := max 1 (s₁.maxCharsPerVolume - s₁.currentCharCount -
        (partHeader filename pn).length) with hav
      set pieces := chunkSplit rem availableSpace with hp
      set fullChunk := partHeader filename pn ++ pieces.1 with hf
      set s₂ : MergerState :=
        { s₁ with
          currentContent := s₁.currentContent ++ [fullChunk]
          fileIndex := s₁.fileIndex ++ [partIndexName filename pn]
          currentCharCount := s₁.currentCharCount + fullChunk.length } with hs₂
      set s₃ := if s₂.currentCharCount ≥ s₂.maxCharsPerVolume then flush_volume s₂ else s₂
        with hs₃
      have hne₂ : s₂.currentContent ≠ [] := by simp [hs₂]
      have hinv₃ : MergerInv s₃ := by
        rw [hs₃]
        by_cases hge : s₂.currentCharCount ≥ s₂.maxCharsPerVolume
        · rw [if_pos hge]
          unfold flush_volume
          rw [if_neg hne₂]
          exact And.intro (Nat.zero_le _) (fun _ => rfl)
        · rw [if_neg hge]
          exact And.intro (Nat.le_of_lt (Nat.lt_of_not_le hge)) (fun hnil => absurd hnil hne₂)
      have hmax₂ : s₂.maxCharsPerVolume = s.maxCharsPerVolume := hmax₁
      have hmax₃ : s₃.maxCharsPerVolume = s.maxCharsPerVolume := by
        rw [hs₃]
        by_cases hge : s₂.currentCharCount ≥ s₂.maxCharsPerVolume
        · rw [if_pos hge, flush_volume_maxChars]; exact hmax₂
        · rw [if_neg hge]; exact hmax₂
      obtain ⟨h1, h2⟩ := ih (pn + 1) pieces.2 s₃ hinv₃
      refine And.intro h1 ?_
      exact h2.trans hmax₃

theorem add_content_inv {s : MergerState} (filename content : Text) (h : MergerInv s) :
    MergerInv (add_content s filename content) := by
  unfold add_content
  by_cases hbig : content.length > s.maxCharsPerVolume
  · rw [if_pos hbig]
    exact (hugeLoop_inv filename MAX_PARTS 1 content s h).1
  · rw [if_neg hbig]
    set s₁ := if s.currentCharCount + content.length > s.maxCharsPerVolume
      then flush_volume s else s with hs₁
    have hcount : s₁.currentCharCount + content.length ≤ s₁.maxCharsPerVolume := by
      rw [hs₁]
      by_cases hover : s.currentCharCount + content.length > s.maxCharsPerVolume
      · rw [if_pos hover]
        unfold flush_volume
        by_cases hnil : s.currentContent = []
        · rw [if_pos hnil]
          have h0 : s.currentCharCount = 0 := h.2 hnil
          omega
        · rw [if_neg hnil]
          simp only
          omega
      · rw [if_neg hover]
        omega
    refine And.intro ?_ ?_
    · simpa using hcount
    · intro hnil
      simp at hnil

theorem merger_reachable_inv {s : MergerState} (h : MergerReachable s) : MergerInv s := by
  induction h with
  | init maxChars => exact And.intro (Nat.zero_le _) (fun _ => rfl)
  | add filename content _ ih => exact add_content_inv filename content ih
  | fin _ ih => exact flush_volume_inv ih

/-! ## C1 -/

/-- C1: the per-file loop of `process_directory` classifies and processes
no file at all.  The whole dispatch block is nested inside the
hidden-file guard after its `continue`, so every walked non-hidden
regular file falls through the loop body untouched: the list of files
dispatched to `_process_single_file` is empty for every walk, in
particular for a walk that finds the single non-hidden file `a.txt`. -/
theorem process_directory_dispatches_no_files :
    (∀ entries : List Text, process_directory_dispatched entries = []) ∧
    process_directory_dispatched ["a.txt".toList] = [] ∧
    startsWithDot "a.txt".toList = false := by
  have hb : ∀ f : Text, dispatches_single_file (process_directory_loop_body f) = false := by
    intro f
    unfold process_directory_loop_body
    split <;> rfl
  refine ⟨?_, ?_, ?_⟩
  · intro entries
    unfold process_directory_dispatched
    induction collect_walk_files entries with
    | nil => rfl
    | cons x xs ih => simp [List.filter_cons, hb x, ih]
  · decide
  · decide

/-! ## C2 -/

/-- C2 counterexample: with capacity 20 a single 25-character line (no
newline anywhere) is split by `_handle_huge_file` into 7 parts, not
emitted as one oversized part; consequently some split boundary falls
inside a line. -/
theorem huge_file_split_inside_line_counterexample :
    (handle_huge_file (initMerger 20) ['f'] (List.replicate 25 'a')).chunks.length = 7 ∧
    '\n' ∉ List.replicate 25 'a' ∧
    (handle_huge_file (initMerger 20) ['f'] (List.replicate 25 'a')).chunks ≠
      [List.replicate 25 'a'] := by decide

/-- C2 (amended): a single oversized `add_content` call delegates to the
huge-file splitter, and concatenating the emitted parts' bodies (the
chunk texts without their part headers) in order, followed by any content
dropped at the `MAX_PARTS` ceiling, reproduces the content exactly.  The
split boundaries, however, are not always at newlines: the splitter
prefers the last newline in the window but falls back to `",\n"`,
`"\t\n"`, `","`, `"\t"`, `" "` and finally an arbitrary cut, so a line
longer than the remaining capacity is hard-split rather than emitted
oversized. -/
theorem handle_huge_file_lossless (s : MergerState) (filename content : Text)
    (h : content.length > s.maxCharsPerVolume) :
    add_content s filename content = (handle_huge_file s filename content).state ∧
    (handle_huge_file s filename content).chunks.flatten ++
      (handle_huge_file s filename content).leftover = content := by
  constructor
  · unfold add_content
    rw [if_pos h]
  · exact hugeLoop_lossless filename MAX_PARTS 1 content s

/-- C2 witness: the lossless-split theorem applied to a concrete
25-character content with capacity 20. -/
theorem handle_huge_file_lossless_witness :
    add_content (initMerger 20) ['f'] (List.replicate 25 'a') =
      (handle_huge_file (initMerger 20) ['f'] (List.replicate 25 'a')).state ∧
    (handle_huge_file (initMerger 20) ['f'] (List.replicate 25 'a')).chunks.flatten ++
      (handle_huge_file (initMerger 20) ['f'] (List.replicate 25 'a')).leftover =
      List.replicate 25 'a' :=
  handle_huge_file_lossless (initMerger 20) ['f'] (List.replicate 25 'a') (by decide)

/-! ## C3 -/

/-- C3 counterexample: with capacity 16 and the single-character file
name `f`, splitting a 17-character content appends a part whose header
alone fills the whole volume, and the recorded char count right after
that append is 17 > 16 — the flush in the splitter happens after the
append, not pre-emptively. -/
theorem huge_file_append_exceeds_capacity_counterexample :
    ((handle_huge_file (initMerger 16) ['f'] (List.replicate 17 'a')).counts.all
      (fun n => n ≤ (initMerger 16).maxCharsPerVolume)) = false := by decide

/-- C3 (amended): at the engine's API boundaries the invariant holds —
after any sequence of `add_content` and `finalize` calls on a fresh
manager the buffered char count is at most `max_chars_per_volume`
(within the huge-file splitter the count may momentarily exceed the
capacity right after a part append, as the counterexample shows). -/
theorem merger_char_count_invariant {s : MergerState} (h : MergerReachable s) :
    s.currentCharCount ≤ s.maxCharsPerVolume :=
  (merger_reachable_inv h).1

/-- C3 witness: the invariant theorem applied to the state reached by one
concrete `add_content` call on a fresh manager. -/
theorem merger_char_count_invariant_witness :
    (add_content (initMerger 10) "a.md".toList "hello".toList).currentCharCount ≤
      (add_content (initMerger 10) "a.md".toList "hello".toList).maxCharsPerVolume :=
  merger_char_count_invariant
    (MergerReachable.add "a.md".toList "hello".toList (MergerReachable.init 10))


/-! ## C4 -/

/-- C4 counterexample: a file whose content hash has changed (stored hash
`"h"`, current bytes hash to something else) but whose modification time
is unchanged is reported as NOT needing processing — the hash is only
recomputed when the mtime differs, so `needs_processing` does not return
true after a hash change alone. -/
theorem needs_processing_hash_change_same_mtime_counterexample :
    needs_processing (fun bytes => bytes.map Char.ofNat)
      [("k".toList, ⟨"h".toList, 0, [], [], []⟩)]
      ⟨some 0, some [1, 2]⟩ "k".toList = false := by decide

/-- C4 (amended): `needs_processing` returns true exactly when the key is
absent, the stat fails, or the mtime differs from the stored one AND the
recomputed hash differs from the stored one; in particular a file
recorded by `record_processed` and unchanged since is reported as not
needing processing, while a hash change with an unchanged mtime goes
undetected (the hash is only recomputed after an mtime difference). -/
theorem needs_processing_characterization (hashFn : List Nat → Text)
    (files : List (Text × FileRecord)) (f : DiskFile) (key : Text) :
    (needs_processing hashFn files f key = true ↔
      List.lookup key files = none ∨ f.statMtime = none ∨
      (∃ stored mtime, List.lookup key files = some stored ∧ f.statMtime = some mtime ∧
        mtime ≠ stored.mtime ∧ get_file_hash hashFn f ≠ stored.hash)) ∧
    (∀ output file_type now : Text, ∀ m : Int, f.statMtime = some m →
      needs_processing hashFn (record_processed hashFn files f key output file_type now)
        f key = false) := by
  constructor
  · unfold needs_processing
    cases hl : List.lookup key files with
    | none => simp
    | some stored =>
      cases hs : f.statMtime with
      | none => simp
      | some m =>
        simp only [hl, hs, Option.some.injEq, reduceCtorEq, false_or]
        by_cases hm : m ≠ stored.mtime
        · by_cases hh : get_file_hash hashFn f ≠ stored.hash
          · simp only [if_pos hm, if_pos hh]
            constructor
            · intro _
              exact ⟨stored, m, rfl, rfl, hm, hh⟩
            · intro _
              trivial
          · simp only [if_pos hm, if_neg hh]
            constructor
            · intro h
              exact absurd h (by simp)
            · rintro ⟨st, mt, hst, hmt, _, hhash⟩
              cases hst
              cases hmt
              exact absurd hhash hh
        · simp only [if_neg hm]
          constructor
          · intro h
            exact absurd h (by simp)
          · rintro ⟨st, mt, hst, hmt, hmm, _⟩
            cases hst
            cases hmt
            exact absurd hmm hm
  · intro output file_type now m hm
    unfold record_processed
    rw [hm]
    unfold needs_processing
    simp only [List.lookup, beq_self_eq_true]
    rw [hm]
    simp [get_file_hash]

/-- C4 witness: a file recorded once and unchanged is reported as not
needing processing. -/
theorem needs_processing_characterization_witness :
    needs_processing (fun bytes => bytes.map Char.ofNat)
      (record_processed (fun bytes => bytes.map Char.ofNat) [] ⟨some 0, some [1]⟩
        "k".toList "out".toList "t".toList "now".toList)
      ⟨some 0, some [1]⟩ "k".toList = false :=
  (needs_processing_characterization (fun bytes => bytes.map Char.ofNat) []
    ⟨some 0, some [1]⟩ "k".toList).2 "out".toList "t".toList "now".toList 0 rfl

/-! ## C9 -/

/-- C9 counterexample: a file whose content cannot be hashed
(`contents = none`) but whose stat succeeds with an unchanged mtime is
reported as NOT needing processing — the hash is never consulted on the
unchanged-mtime path, so an unhashable file can be silently treated as
unchanged. -/
theorem needs_processing_unhashable_unchanged_counterexample :
    needs_processing (fun bytes => bytes.map Char.ofNat)
      [("k".toList, ⟨"h".toList, 0, [], [], []⟩)]
      ⟨some 0, none⟩ "k".toList = false := by decide

/-- C9 (amended): the tracker is conservative on a stat failure — it
always reports "needs processing" — and on a hash failure it reports
"needs processing" provided the hash is actually consulted (the mtime
differs) and the stored hash is not itself the empty failure sentinel.
An unhashable file with an unchanged mtime is reported unchanged. -/
theorem needs_processing_conservative (hashFn : List Nat → Text)
    (files : List (Text × FileRecord)) (f : DiskFile) (key : Text) :
    (f.statMtime = none → needs_processing hashFn files f key = true) ∧
    (∀ stored : FileRecord, ∀ m : Int,
      List.lookup key files = some stored → f.statMtime = some m →
      m ≠ stored.mtime → f.contents = none → stored.hash ≠ [] →
      needs_processing hashFn files f key = true) := by
  constructor
  · intro hs
    unfold needs_processing
    cases hl : List.lookup key files with
    | none => rfl
    | some stored => rw [hs]
  · intro stored m hl hs hm hc hhash
    simp only [needs_processing, hl, hs, get_file_hash, hc]
    rw [if_pos hm, if_pos (fun h => hhash h.symm)]

/-- C9 witness: the conservativity theorem applied to a concrete file
whose stat fails. -/
theorem needs_processing_conservative_witness :
    needs_processing (fun bytes => bytes.map Char.ofNat) [] ⟨none, none⟩ "k".toList = true :=
  (needs_processing_conservative (fun bytes => bytes.map Char.ofNat) []
    ⟨none, none⟩ "k".toList).1 rfl


/-! ## C5 -/

/-- C5 counterexample: a 150 MB file with extension `.zip` is classified
`Archive` by the code — the classification chain contains no
size-over-ceiling check at all (`max_file_size` is never consulted) —
whereas the decision order stated by the specification would classify it
`SkipOversize`. -/
theorem classify_no_size_ceiling_counterexample :
    classify defaultConfig ".zip".toList none false = Category.Archive ∧
    classifySpecOrder defaultConfig 157286400 ".zip".toList none false =
      Category.SkipOversize ∧
    Category.Archive ≠ Category.SkipOversize := by decide

/-- C5 (amended): classification applies a first-match-wins order with no
size check: explicit-skip set, then archive set, then the convertible
document sets (new office, `.pdf`, legacy office, MarkItDown, Visio,
image), and only for remaining extensions the MIME sniff — a known text
extension or a confident text MIME verdict classifies `PlainText`, a
confident binary verdict classifies `SkipBinary`, and an inconclusive
verdict defers to the encoding probe's readability answer. -/
theorem classify_decision_order (cfg : Config) (ext : Text) (mime : Option Bool)
    (probe : Bool) :
    (ext ∈ cfg.skip_extensions → classify cfg ext mime probe = Category.SkipExplicit) ∧
    (ext ∉ cfg.skip_extensions → ext ∈ cfg.archive_extensions →
      classify cfg ext mime probe = Category.Archive) ∧
    (ext ∉ cfg.skip_extensions → ext ∉ cfg.archive_extensions →
      ext ∈ cfg.office_extensions_new →
      classify cfg ext mime probe = Category.OfficeModern) ∧
    (ext ∉ cfg.skip_extensions → ext ∉ cfg.archive_extensions →
      ext ∉ cfg.office_extensions_new → ext = ".pdf".toList →
      classify cfg ext mime probe = Category.PdfPassthrough) ∧
    (ext ∉ cfg.skip_extensions → ext ∉ cfg.archive_extensions →
      ext ∉ cfg.office_extensions_new → ext ≠ ".pdf".toList →
      ext ∈ cfg.office_extensions_legacy →
      classify cfg ext mime probe = Category.OfficeLegacy) ∧
    (ext ∉ cfg.skip_extensions → ext ∉ cfg.archive_extensions →
      ext ∉ cfg.office_extensions_new → ext ≠ ".pdf".toList →
      ext ∉ cfg.office_extensions_legacy → ext ∈ cfg.markitdown_extensions →
      classify cfg ext mime probe = Category.GenericConvertible) ∧
    (ext ∉ cfg.skip_extensions → ext ∉ cfg.archive_extensions →
      ext ∉ cfg.office_extensions_new → ext ≠ ".pdf".toList →
      ext ∉ cfg.office_extensions_legacy → ext ∉ cfg.markitdown_extensions →
      ext ∈ cfg.visio_extensions →
      classify cfg ext mime probe = Category.VectorDiagram) ∧
    (ext ∉ cfg.skip_extensions → ext ∉ cfg.archive_extensions →
      ext ∉ cfg.office_extensions_new → ext ≠ ".pdf".toList →
      ext ∉ cfg.office_extensions_legacy → ext ∉ cfg.markitdown_extensions →
      ext ∉ cfg.visio_extensions → ext ∈ cfg.image_extensions →
      classify cfg ext mime probe = Category.Image) ∧
    (ext ∉ cfg.skip_extensions → ext ∉ cfg.archive_extensions →
      ext ∉ cfg.office_extensions_new → ext ≠ ".pdf".toList →
      ext ∉ cfg.office_extensions_legacy → ext ∉ cfg.markitdown_extensions →
      ext ∉ cfg.visio_extensions → ext ∉ cfg.image_extensions →
      ((ext ∈ cfg.text_extensions ∨ mime = some true →
          classify cfg ext mime probe = Category.PlainText) ∧
       (ext ∉ cfg.text_extensions → mime = some false →
          classify cfg ext mime probe = Category.SkipBinary) ∧
       (ext ∉ cfg.text_extensions → mime = none →
          classify cfg ext mime probe =
            (if probe then Category.PlainText else Category.SkipBinary)))) := by
  unfold classify classifyCore
  refine ⟨?_, ?_, ?_, ?_, ?_, ?_, ?_, ?_, ?_⟩
  · intro h₀
    rw [if_pos h₀]
  · intro h₀ h₁
    rw [if_neg h₀, if_pos h₁]
  · intro h₀ h₁ h₂
    rw [if_neg h₀, if_neg h₁, if_pos h₂]
  · intro h₀ h₁ h₂ h₃
    rw [if_neg h₀, if_neg h₁, if_neg h₂, if_pos h₃]
  · intro h₀ h₁ h₂ h₃ h₄
    rw [if_neg h₀, if_neg h₁, if_neg h₂, if_neg h₃, if_pos h₄]
  · intro h₀ h₁ h₂ h₃ h₄ h₅
    rw [if_neg h₀, if_neg h₁, if_neg h₂, if_neg h₃, if_neg h₄, if_pos h₅]
  · intro h₀ h₁ h₂ h₃ h₄ h₅ h₆
    rw [if_neg h₀, if_neg h₁, if_neg h₂, if_neg h₃, if_neg h₄, if_neg h₅, if_pos h₆]
  · intro h₀ h₁ h₂ h₃ h₄ h₅ h₆ h₇
    rw [if_neg h₀, if_neg h₁, if_neg h₂, if_neg h₃, if_neg h₄, if_neg h₅, if_neg h₆,
      if_pos h₇]
  · intro h₀ h₁ h₂ h₃ h₄ h₅ h₆ h₇
    have hguard : ext ∉ office_extensions_all cfg ∧ ext ≠ ".pdf".toList := by
      refine ⟨?_, h₃⟩
      unfold office_extensions_all
      rw [List.mem_append]
      rintro (h | h)
      · exact h₂ h
      · exact h₄ h
    rw [if_neg h₀, if_neg h₁, if_neg h₂, if_neg h₃, if_neg h₄, if_neg h₅, if_neg h₆,
      if_neg h₇, if_pos hguard]
    refine ⟨?_, ?_, ?_⟩
    · intro htext
      rw [if_pos htext]
    · intro htext hmime
      rw [if_neg ?_, if_pos hmime]
      rintro (h | h)
      · exact htext h
      · rw [hmime] at h
        simp at h
    · intro htext hmime
      rw [if_neg ?_, if_neg ?_]
      · rw [hmime]
        simp
      · rintro (h | h)
        · exact htext h
        · rw [hmime] at h
          simp at h

/-- C5 witness: the decision-order theorem applied to the default
configuration and the concrete extension `.exe` of the explicit-skip
set. -/
theorem classify_decision_order_witness :
    classify defaultConfig ".exe".toList none false = Category.SkipExplicit :=
  (classify_decision_order defaultConfig ".exe".toList none false).1 (by decide)


/-! ## C6 -/

/-- C6 counterexample: when all three attempts fail, the waits actually
performed are 1 second and 2 seconds only — there are two gaps between
three attempts, so the claimed backoff schedule "1s, 2s, 4s for 3
attempts" never occurs (a 4-second wait would only precede a fourth
attempt). -/
theorem call_with_retry_backoff_counterexample :
    (call_with_retry (fun _ => (none : Option Nat)) 3).sleeps = [1, 2] ∧
    [1, 2] ≠ [1, 2, 4] := by decide

/-- C6 (amended): the retry skeleton shared by `convert_with_markitdown`
and `convert_to_pdf_via_libreoffice` attempts the call up to 3 times,
sleeping `2 ^ attemptIndex` seconds between consecutive attempts (1s then
2s; no sleep follows the final attempt); when every attempt fails it
returns no result and logs the final error exactly once; when attempt `k`
is the first to succeed it returns that result immediately, with total
prior waiting `1 + 2 + … + 2^(k-1)` seconds and no warning. -/
theorem call_with_retry_spec {α : Type} (behav : Nat → Option α) :
    ((∀ i, i < 3 → behav i = none) → call_with_retry behav 3 = ⟨none, [1, 2], 1⟩) ∧
    (∀ (k : Nat) (v : α), k < 3 → behav k = some v → (∀ i, i < k → behav i = none) →
      call_with_retry behav 3 = ⟨some v, (List.range k).map (fun i => 2 ^ i), 0⟩) := by
  constructor
  · intro h
    have h0 := h 0 (by omega)
    have h1 := h 1 (by omega)
    have h2 := h 2 (by omega)
    simp [call_with_retry, retryGo, h0, h1, h2]
  · intro k v hk hkv hprev
    interval_cases k
    · simp [call_with_retry, retryGo, hkv]
    · have h0 := hprev 0 (by omega)
      simp [call_with_retry, retryGo, h0, hkv]
      decide
    · have h0 := hprev 0 (by omega)
      have h1 := hprev 1 (by omega)
      simp [call_with_retry, retryGo, h0, h1, hkv]
      decide

/-- C6 witness: a converter failing on the first two attempts and
succeeding on the third yields the success value after waits of 1 and 2
seconds (3 seconds in total) and no warning. -/
theorem call_with_retry_spec_witness :
    call_with_retry (fun i => if i = 2 then some (42 : Nat) else none) 3 =
      ⟨some 42, [1, 2], 0⟩ := by
  have h := (call_with_retry_spec (fun i => if i = 2 then some (42 : Nat) else none)).2
    2 42 (by omega) (by simp) (fun i hi => by
      have : i ≠ 2 := by omega
      simp [this])
  rw [h]
  decide

/-! ## C7 -/

/-- C7: the zip-slip guard is a string-prefix test on resolved paths, and
it can be bypassed.  With extraction root `/tmp/ex`, the member
`../exfil/evil.txt` resolves to `/tmp/exfil/evil.txt`, which starts with
the string `/tmp/ex`, so the member is extracted and the file is created
outside the root; the spec's own example `../../evil.txt` resolves to
`/evil.txt` and is correctly dropped. -/
theorem zip_slip_string_prefix_bypass :
    extract_zip_members "/tmp/ex".toList ["../exfil/evil.txt".toList] =
      ["/tmp/exfil/evil.txt".toList] ∧
    path_within "/tmp/ex".toList "/tmp/exfil/evil.txt".toList = false ∧
    extract_zip_members "/tmp/ex".toList ["../../evil.txt".toList] = [] := by decide

/-! ## C8 -/

/-- C8: a modern Office file is rerouted to PDF rendering exactly when
the density ratio is below the threshold (default 300) or the visual
element count is at least 5; a zero visual count yields the sentinel
ratio 9999, so `(vis, chars) = (0, 1000)` routes to text extraction,
while `vis = 6` routes to PDF for every char count. -/
theorem visual_density_routing (visCount charCount : Nat) :
    (should_convert_to_pdf 300 visCount charCount = true ↔
      (visual_density_ratio visCount charCount < 300 ∨ 5 ≤ visCount)) ∧
    should_convert_to_pdf 300 0 1000 = false ∧
    should_convert_to_pdf 300 6 charCount = true := by
  refine ⟨?_, ?_, ?_⟩
  · simp [should_convert_to_pdf]
  · decide
  · simp [should_convert_to_pdf]

/-! ## C10 -/

/-- C10 counterexample: the metadata header is built from the raw file
name and relative path, which are not sanitised, so a file name
containing a zero-width space produces a `final_content` fragment — the
exact text written out and handed to `merger.add_content` — that still
contains that invisible character. -/
theorem final_content_header_invisible_counterexample :
    '\u200B' ∈ final_content ['a', '\u200B', 'b'] ['a', '\u200B', 'b'] [] ∧
    '\u200B' ∈ INVISIBLE_CHARS := by decide

/-- Membership characterisation of `sanitize_content`: a character
survives exactly when it is in the input and not in the invisible set. -/
theorem mem_sanitize_content {x : Char} {md : Text} :
    x ∈ sanitize_content md ↔ x ∈ md ∧ x ∉ INVISIBLE_CHARS := by
  unfold sanitize_content INVISIBLE_CHARS
  simp only [List.foldl_cons, List.foldl_nil, List.mem_filter, List.mem_cons,
    List.not_mem_nil, or_false, not_or, decide_eq_true_eq, and_assoc]

/-- C10 (amended): every markdown/text content is passed through
`sanitize_content` before being written and merged: the sanitised portion
of the fragment contains none of the eight invisible characters, and
sanitisation is not the identity on any input containing one of them; an
invisible character occurring in the assembled fragment can only come
from the unsanitised metadata header. -/
theorem sanitize_content_spec (file relPath md : Text) :
    (∀ c ∈ INVISIBLE_CHARS, c ∉ sanitize_content md) ∧
    ((∃ c ∈ md, c ∈ INVISIBLE_CHARS) → sanitize_content md ≠ md) ∧
    (∀ c, c ∈ final_content file relPath md → c ∈ INVISIBLE_CHARS →
      c ∈ metadata_header file relPath) := by
  refine ⟨?_, ?_, ?_⟩
  · intro c hc hmem
    exact (mem_sanitize_content.1 hmem).2 hc
  · rintro ⟨c, hcmd, hcinv⟩ heq
    have hmem : c ∈ sanitize_content md := by rw [heq]; exact hcmd
    exact (mem_sanitize_content.1 hmem).2 hcinv
  · intro c hc hcinv
    unfold final_content at hc
    rcases List.mem_append.1 hc with h | h
    · rcases List.mem_append.1 h with h' | h'
      · exact h'
      · exact absurd hcinv (mem_sanitize_content.1 h').2
    · exfalso
      fin_cases h <;> revert hcinv <;> decide

/-- C10 witness: sanitisation changes a concrete input consisting of a
single zero-width space. -/
theorem sanitize_content_spec_witness :
    sanitize_content ['\u200B'] ≠ ['\u200B'] :=
  (sanitize_content_spec [] [] ['\u200B']).2.1 ⟨'\u200B', by decide, by decide⟩

end NotebookLM
